import Mathlib

/-!
Shallow embedding of the messaging domain service of the
`it-messaging-service` repository.

The Go source embedded here:

* `internal/domain` entity structs (`Conversation`, `Message`, `Attachment`,
  `MessageEvent`) and the filter / pagination records.  The Go enumeration
  types (`Channel`, `ConversationStatus`, `SenderType`, `ContentType`,
  `AttachmentType`) are string types with named constants, so they are kept
  as `String` here with the constant values spelled out where needed.
  `JSONB` (`map[string]interface{}`) is modelled as an association list of
  string key/value pairs; no operation inspects its contents.
* `internal/repositories/postgres_*` conversation-repository semantics over
  an in-memory list of rows (`ConvRepo.getByID`, `ConvRepo.update`),
  including the exact error strings (`"conversation not found"`, wrapped by
  the service).
* `internal/services/cache_service.go`: the `CacheService` interface is a
  record of operations over an abstract cache-state type `σ`; `listCache`
  models the redis implementation against an in-memory association list
  (operations succeed), `noOpCache` models `noOpCacheService` verbatim.
* `internal/services` messaging service methods `GetConversation`,
  `UpdateConversationStatus`, `SendMessage`, `GetMessages`, `GetMessage`,
  `GetAttachment`.  Go errors are modelled by their message strings
  (`Except String`).  `time.Now()` becomes an explicit `now : Nat`
  parameter; the fresh `uuid.New().String()` becomes an explicit `newID`
  parameter.  Fallible collaborators whose concrete implementation the
  service does not depend on (message repository, attachment repository,
  event publisher) are passed as behaviour functions, so theorems can
  quantify over every behaviour, including always-failing ones.
* `internal/handlers/messaging_handlers.go`: `GetConversation` and
  `SendMessage` handlers, including the gin `binding:"required"` validation
  declared on `SendMessageRequest` (a required string field fails binding
  when it is empty, which is the zero value).
-/

/-- `domain.Conversation` (internal/domain): channel and status are Go string
types, timestamps are instants modelled as `Nat`. -/
structure Conversation where
  id : String
  userID : String
  channel : String
  status : String
  createdAt : Nat
  updatedAt : Nat
deriving DecidableEq, Repr

/-- `domain.Attachment` (internal/domain). -/
structure Attachment where
  id : String
  messageID : String
  url : String
  type : String
  size : Int
  filename : String
  createdAt : Nat
deriving DecidableEq, Repr

/-- `domain.Message` (internal/domain); `Attachments` is the transient,
read-time-populated list (`db:"-"`), zero value `[]` when loaded. -/
structure Message where
  id : String
  conversationID : String
  senderType : String
  senderID : String
  content : String
  contentType : String
  metadata : List (String × String)
  timestamp : Nat
  attachments : List Attachment
deriving DecidableEq, Repr

/-- `domain.MessageEvent` (internal/domain), the pub/sub payload. -/
structure MessageEvent where
  type : String
  conversationID : String
  message : Message
  timestamp : Nat
deriving DecidableEq, Repr

/-- `domain.PaginationParams` (internal/domain). -/
structure PaginationParams where
  limit : Int
  offset : Int
  sortBy : String
  order : String
deriving DecidableEq, Repr

/-- `services.SendMessageRequest` (messaging service source): every field
except `Metadata` carries a gin `binding:"required"` tag. -/
structure SendMessageRequest where
  conversationID : String
  senderType : String
  senderID : String
  content : String
  contentType : String
  metadata : List (String × String)
deriving DecidableEq, Repr

/-! ## Conversation repository (postgres implementation over a row list) -/

/-- `postgresConversationRepository.GetByID`: `SELECT ... WHERE id = $1`;
`sql.ErrNoRows` becomes the error `"conversation not found"`. -/
def ConvRepo.getByID (store : List Conversation) (id : String) :
    Except String Conversation :=
  match store.find? (fun c => c.id == id) with
  | some c => Except.ok c
  | none => Except.error "conversation not found"

/-- `postgresConversationRepository.Update`: `UPDATE ... WHERE id = $1`
writing user_id/channel/status/updated_at from the struct; zero rows
affected yields the error `"conversation not found"`. -/
def ConvRepo.update (store : List Conversation) (c : Conversation) :
    Except String (List Conversation) :=
  if store.any (fun r => r.id == c.id) then
    Except.ok (store.map (fun r => if r.id == c.id then c else r))
  else
    Except.error "conversation not found"

/-! ## Cache service interface -/

/-- `services.CacheService` as a record of operations over an abstract cache
state `σ`.  Get operations return a value or an error (the redis
implementation never returns a value-free success); set/delete return the
new state together with an optional error, which every caller in the
messaging service ignores (`_ =` / logged). -/
structure CacheService (σ : Type) where
  getConversation : σ → String → Except String Conversation
  setConversation : σ → Conversation → σ × Option String
  deleteConversation : σ → String → σ × Option String
  getMessages : σ → String → Except String (List Message)
  setMessages : σ → String → List Message → σ × Option String
  deleteMessages : σ → String → σ × Option String

/-- Cache-state of the in-memory model of `redisCacheService` for the
conversation keys: association list from the id used in the
`"conversation:%s"` key to the stored record. -/
abbrev ConvCacheMap := List (String × Conversation)

/-- Lookup of `redisCacheService.GetConversation` over the in-memory map. -/
def cacheLookup (s : ConvCacheMap) (id : String) : Option Conversation :=
  (s.find? (fun p => p.1 == id)).map (fun p => p.2)

/-- In-memory model of `redisCacheService` (`cache_service.go`): all backend
calls succeed; `SetConversation` stores under the record's own id (the
`"conversation:%s"` key), `DeleteConversation` removes the key.  The
message-page operations (`messages:%s` keys, 10-minute TTL) are modelled
with no backing state here since no domain operation invokes them. -/
def listCache : CacheService ConvCacheMap where
  getConversation := fun s id =>
    match cacheLookup s id with
    | some c => Except.ok c
    | none => Except.error "conversation not found in cache"
  setConversation := fun s c =>
    ((c.id, c) :: s.filter (fun p => p.1 != c.id), none)
  deleteConversation := fun s id =>
    (s.filter (fun p => p.1 != id), none)
  getMessages := fun _ _ => Except.error "messages not found in cache"
  setMessages := fun s _ _ => (s, none)
  deleteMessages := fun s _ => (s, none)

/-- `noOpCacheService` (`cache_service.go`): gets fail with
`"cache disabled"`, sets/deletes succeed doing nothing. -/
def noOpCache : CacheService Unit where
  getConversation := fun _ _ => Except.error "cache disabled"
  setConversation := fun s _ => (s, none)
  deleteConversation := fun s _ => (s, none)
  getMessages := fun _ _ => Except.error "cache disabled"
  setMessages := fun s _ _ => (s, none)
  deleteMessages := fun s _ => (s, none)

/-! ## Messaging service -/

/-- Store path of `messagingService.GetConversation`: repository read with
error wrapping `"failed to get conversation: %w"`, ownership check yielding
`"conversation not found or access denied"`, and — only on an owned hit —
the best-effort `SetConversation` whose error is discarded (`_ =`). -/
def GetConversationFromStore {σ : Type} (cache : CacheService σ)
    (convStore : List Conversation) (cst : σ) (id userID : String) :
    Except String Conversation × σ :=
  match ConvRepo.getByID convStore id with
  | Except.error e => (Except.error ("failed to get conversation: " ++ e), cst)
  | Except.ok conversation =>
    if conversation.userID != userID then
      (Except.error "conversation not found or access denied", cst)
    else
      (Except.ok conversation, (cache.setConversation cst conversation).1)

/-- `messagingService.GetConversation`: cache first; a cache hit is returned
only after re-verifying ownership; on cache error, miss, or ownership
mismatch the store path runs. -/
def GetConversation {σ : Type} (cache : CacheService σ)
    (convStore : List Conversation) (cst : σ) (id userID : String) :
    Except String Conversation × σ :=
  match cache.getConversation cst id with
  | Except.ok cached =>
    if cached.userID == userID then (Except.ok cached, cst)
    else GetConversationFromStore cache convStore cst id userID
  | Except.error _ => GetConversationFromStore cache convStore cst id userID

/-- Outcome of `UpdateConversationStatus`: caller-visible result, resulting
conversation store, resulting cache state. -/
structure UpdateOutcome (σ : Type) where
  result : Except String Unit
  convStore : List Conversation
  cacheState : σ
deriving Repr

/-- `messagingService.UpdateConversationStatus`: ownership re-resolved via
`GetConversation`, status and updated-timestamp mutated on the record Get
returned, written through the repository (error wrapped with
`"failed to update conversation: %w"`), then the cached entry is deleted
best-effort (`_ =`). -/
def UpdateConversationStatus {σ : Type} (cache : CacheService σ)
    (convStore : List Conversation) (cst : σ) (id status userID : String)
    (now : Nat) : UpdateOutcome σ :=
  match GetConversation cache convStore cst id userID with
  | (Except.error e, cst₁) => ⟨Except.error e, convStore, cst₁⟩
  | (Except.ok conversation, cst₁) =>
    match ConvRepo.update convStore
        { conversation with status := status, updatedAt := now } with
    | Except.error e =>
      ⟨Except.error ("failed to update conversation: " ++ e), convStore, cst₁⟩
    | Except.ok convStore₁ =>
      ⟨Except.ok (), convStore₁, (cache.deleteConversation cst₁ id).1⟩

/-- Outcome of `SendMessage`: caller-visible result, resulting message
store, the events handed to the event publisher during the call (regardless
of the publisher's own error result), resulting cache state. -/
structure SendOutcome (σ : Type) where
  result : Except String Message
  msgStore : List Message
  published : List MessageEvent
  cacheState : σ
deriving Repr

/-- `messagingService.SendMessage`: ownership verified via
`GetConversation(req.ConversationID, req.SenderID)`, whose error is
returned unchanged; then a fresh `Message` (id `newID`, timestamp `now`,
no attachments) is written through `messageRepo.Create`, whose failure
(behaviour `createErr`, error wrapped as
`"failed to create message: %w"`) aborts the call; on success the
`"message.received"` event is handed to the publisher, whose error result
(`pubErr`) is only logged and never affects the outcome. -/
def SendMessage {σ : Type} (cache : CacheService σ)
    (convStore : List Conversation) (msgStore : List Message) (cst : σ)
    (req : SendMessageRequest) (newID : String) (now : Nat)
    (createErr : Option String) (pubErr : MessageEvent → Option String) :
    SendOutcome σ :=
  match GetConversation cache convStore cst req.conversationID req.senderID with
  | (Except.error e, cst₁) => ⟨Except.error e, msgStore, [], cst₁⟩
  | (Except.ok _, cst₁) =>
    let message : Message :=
      { id := newID
        conversationID := req.conversationID
        senderType := req.senderType
        senderID := req.senderID
        content := req.content
        contentType := req.contentType
        metadata := req.metadata
        timestamp := now
        attachments := [] }
    match createErr with
    | some e =>
      ⟨Except.error ("failed to create message: " ++ e), msgStore, [], cst₁⟩
    | none =>
      let event : MessageEvent :=
        { type := "message.received"
          conversationID := message.conversationID
          message := message
          timestamp := now }
      let _ := pubErr event
      ⟨Except.ok message, msgStore ++ [message], [event], cst₁⟩

/-- Attachment-loading loop of `messagingService.GetMessages`: for each
message the `attachmentRepo.GetByMessageID` behaviour `attOf` is consulted;
an error is logged and skipped (`continue`), leaving that message's
attachment list as loaded from the database. -/
def loadAttachments (attOf : String → Except String (List Attachment))
    (messages : List Message) : List Message :=
  messages.map (fun m =>
    match attOf m.id with
    | Except.error _ => m
    | Except.ok atts => { m with attachments := atts })

/-- `messagingService.GetMessages`: ownership verified via
`GetConversation` first (its error returned unchanged), then the message
page is read through `messageRepo.GetByConversationID` (behaviour `pageOf`,
error wrapped as `"failed to get messages: %w"`), then attachments are
loaded per message, degrading only the failing item. -/
def GetMessages {σ : Type} (cache : CacheService σ)
    (convStore : List Conversation)
    (pageOf : String → PaginationParams → Except String (List Message))
    (attOf : String → Except String (List Attachment)) (cst : σ)
    (conversationID userID : String) (pagination : PaginationParams) :
    Except String (List Message) × σ :=
  match GetConversation cache convStore cst conversationID userID with
  | (Except.error e, cst₁) => (Except.error e, cst₁)
  | (Except.ok _, cst₁) =>
    match pageOf conversationID pagination with
    | Except.error e => (Except.error ("failed to get messages: " ++ e), cst₁)
    | Except.ok messages => (Except.ok (loadAttachments attOf messages), cst₁)

/-- `messagingService.GetMessage`: the message is fetched by id (behaviour
`msgGetByID`, error wrapped as `"failed to get message: %w"`), conversation
ownership verified via `GetConversation` on its conversation id, then its
attachments are loaded (error logged, not fatal, leaving the list as
fetched). -/
def GetMessage {σ : Type} (cache : CacheService σ)
    (convStore : List Conversation)
    (msgGetByID : String → Except String Message)
    (attOf : String → Except String (List Attachment)) (cst : σ)
    (messageID userID : String) : Except String Message × σ :=
  match msgGetByID messageID with
  | Except.error e => (Except.error ("failed to get message: " ++ e), cst)
  | Except.ok message =>
    match GetConversation cache convStore cst message.conversationID userID with
    | (Except.error e, cst₁) => (Except.error e, cst₁)
    | (Except.ok _, cst₁) =>
      match attOf messageID with
      | Except.error _ => (Except.ok message, cst₁)
      | Except.ok atts => (Except.ok { message with attachments := atts }, cst₁)

/-- `messagingService.GetAttachment`: the attachment is fetched by id
(behaviour `attGetByID`, error wrapped as `"failed to get attachment: %w"`),
then access is verified transitively through `GetMessage` on its parent
message id; the attachment fetched first is returned. -/
def GetAttachment {σ : Type} (cache : CacheService σ)
    (convStore : List Conversation)
    (msgGetByID : String → Except String Message)
    (attGetByID : String → Except String Attachment)
    (attOf : String → Except String (List Attachment)) (cst : σ)
    (attachmentID userID : String) : Except String Attachment × σ :=
  match attGetByID attachmentID with
  | Except.error e => (Except.error ("failed to get attachment: " ++ e), cst)
  | Except.ok attachment =>
    match GetMessage cache convStore msgGetByID attOf cst
        attachment.messageID userID with
    | (Except.error e, cst₁) => (Except.error e, cst₁)
    | (Except.ok _, cst₁) => (Except.ok attachment, cst₁)

/-! ## List-backed message / attachment repository behaviours
(used to instantiate the behaviour parameters with the postgres semantics
over in-memory rows). -/

/-- `messageRepo.GetByID` over a row list. -/
def MsgRepo.getByID (msgStore : List Message) (id : String) :
    Except String Message :=
  match msgStore.find? (fun m => m.id == id) with
  | some m => Except.ok m
  | none => Except.error "message not found"

/-- `attachmentRepo.GetByID` over a row list
(`postgres_attachment_repository.go`). -/
def AttRepo.getByID (attStore : List Attachment) (id : String) :
    Except String Attachment :=
  match attStore.find? (fun a => a.id == id) with
  | some a => Except.ok a
  | none => Except.error "attachment not found"

/-- `attachmentRepo.GetByMessageID` over a row list: all rows whose
`message_id` matches. -/
def AttRepo.getByMessageID (attStore : List Attachment) (messageID : String) :
    Except String (List Attachment) :=
  Except.ok (attStore.filter (fun a => a.messageID == messageID))

/-! ## HTTP handlers (`internal/handlers/messaging_handlers.go`) -/

/-- A handler outcome: the HTTP status together with the
`domain.APIResponse` fields (`code`, `message`, optional `data`). -/
structure HandlerResponse (α : Type) where
  status : Nat
  code : String
  message : String
  data : Option α
deriving DecidableEq, Repr

/-- The gin `binding:"required"` validation declared on
`services.SendMessageRequest`: a required string field fails validation at
its zero value (the empty string); `Metadata` is `omitempty` and not
required.  Returns the field names that fail, in struct order — gin's
`err.Error()` reported via the 400 response enumerates exactly these. -/
def bindingErrors (body : SendMessageRequest) : List String :=
  (if body.conversationID == "" then ["ConversationID"] else []) ++
  (if body.senderType == "" then ["SenderType"] else []) ++
  (if body.senderID == "" then ["SenderID"] else []) ++
  (if body.content == "" then ["Content"] else []) ++
  (if body.contentType == "" then ["ContentType"] else [])

/-- `MessagingHandler.getUserIDFromContext` resolves the bearer token to a
user id, yielding `""` when extraction or validation fails; the handlers
treat `""` as unauthenticated.  Modelled as an `Option String` already
resolved by the identity collaborator. -/
def resolvedUserID (auth : Option String) : String :=
  match auth with
  | none => ""
  | some u => u

/-- `MessagingHandler.GetConversation`: 401 on invalid token, 400 on empty
path id, 404 with the fixed body `"Conversation not found"` on any service
error, 200 with the conversation otherwise. -/
def handlerGetConversation {σ : Type} (cache : CacheService σ)
    (convStore : List Conversation) (cst : σ) (auth : Option String)
    (pathID : String) : HandlerResponse Conversation × σ :=
  if resolvedUserID auth == "" then
    (⟨401, "UNAUTHORIZED", "Invalid token", none⟩, cst)
  else if pathID == "" then
    (⟨400, "INVALID_REQUEST", "Conversation ID is required", none⟩, cst)
  else
    match GetConversation cache convStore cst pathID (resolvedUserID auth) with
    | (Except.error _, cst₁) =>
      (⟨404, "NOT_FOUND", "Conversation not found", none⟩, cst₁)
    | (Except.ok conversation, cst₁) =>
      (⟨200, "SUCCESS", "Conversation retrieved successfully",
        some conversation⟩, cst₁)

/-- Outcome of the `SendMessage` handler: HTTP response plus the resulting
message store and the events handed to the publisher. -/
structure HandlerSendOutcome (σ : Type) where
  response : HandlerResponse Message
  msgStore : List Message
  published : List MessageEvent
  cacheState : σ
deriving Repr

/-- `MessagingHandler.SendMessage`: 401 on invalid token, 400 on empty path
id, 400 with the binding error on failed body validation; otherwise the
body's `ConversationID` is overwritten with the path parameter and its
`SenderID` with the authenticated user id before the domain service is
invoked; a service error maps to 500, success to 201 with the message. -/
def handlerSendMessage {σ : Type} (cache : CacheService σ)
    (convStore : List Conversation) (msgStore : List Message) (cst : σ)
    (auth : Option String) (pathID : String) (body : SendMessageRequest)
    (newID : String) (now : Nat) (createErr : Option String)
    (pubErr : MessageEvent → Option String) : HandlerSendOutcome σ :=
  if resolvedUserID auth == "" then
    ⟨⟨401, "UNAUTHORIZED", "Invalid token", none⟩, msgStore, [], cst⟩
  else if pathID == "" then
    ⟨⟨400, "INVALID_REQUEST", "Conversation ID is required", none⟩,
      msgStore, [], cst⟩
  else if bindingErrors body ≠ [] then
    ⟨⟨400, "INVALID_REQUEST", String.intercalate ", " (bindingErrors body),
      none⟩, msgStore, [], cst⟩
  else
    let req := { body with conversationID := pathID,
                           senderID := resolvedUserID auth }
    match SendMessage cache convStore msgStore cst req newID now
        createErr pubErr with
    | ⟨Except.error _, msgStore₁, published₁, cst₁⟩ =>
      ⟨⟨500, "INTERNAL_ERROR", "Failed to send message", none⟩,
        msgStore₁, published₁, cst₁⟩
    | ⟨Except.ok message, msgStore₁, published₁, cst₁⟩ =>
      ⟨⟨201, "SUCCESS", "Message sent successfully", some message⟩,
        msgStore₁, published₁, cst₁⟩

/-! ## Helper lemmas -/

theorem listCache_getConversation_eq (s : ConvCacheMap) (id : String) :
    listCache.getConversation s id =
      match cacheLookup s id with
      | some c => Except.ok c
      | none => Except.error "conversation not found in cache" := rfl

theorem cacheLookup_eq_some {s : ConvCacheMap} {id : String} {c : Conversation}
    (h : cacheLookup s id = some c) :
    ∃ p, p ∈ s ∧ p.1 = id ∧ p.2 = c := by
  unfold cacheLookup at h
  rcases Option.map_eq_some'.mp h with ⟨p, hp, hpc⟩
  refine ⟨p, List.mem_of_find?_eq_some hp, ?_, hpc⟩
  have := List.find?_some hp
  exact eq_of_beq this

theorem GetConversationFromStore_none {σ : Type} (cache : CacheService σ)
    {convStore : List Conversation} (cst : σ) {id : String} (userID : String)
    (h : convStore.find? (fun c => c.id == id) = none) :
    GetConversationFromStore cache convStore cst id userID =
      (Except.error "failed to get conversation: conversation not found", cst) := by
  unfold GetConversationFromStore ConvRepo.getByID
  rw [h]
  rfl

theorem GetConversationFromStore_mismatch {σ : Type} (cache : CacheService σ)
    {convStore : List Conversation} (cst : σ) {id userID : String}
    {c : Conversation} (h : convStore.find? (fun x => x.id == id) = some c)
    (hm : c.userID ≠ userID) :
    GetConversationFromStore cache convStore cst id userID =
      (Except.error "conversation not found or access denied", cst) := by
  unfold GetConversationFromStore ConvRepo.getByID
  rw [h]
  simp [hm]

theorem GetConversationFromStore_owned {σ : Type} (cache : CacheService σ)
    {convStore : List Conversation} (cst : σ) {id userID : String}
    {c : Conversation} (h : convStore.find? (fun x => x.id == id) = some c)
    (hm : c.userID = userID) :
    GetConversationFromStore cache convStore cst id userID =
      (Except.ok c, (cache.setConversation cst c).1) := by
  unfold GetConversationFromStore ConvRepo.getByID
  rw [h]
  simp [hm]

theorem GetConversation_cacheNone {convStore : List Conversation}
    {cst : ConvCacheMap} {id : String} (userID : String)
    (h : cacheLookup cst id = none) :
    GetConversation listCache convStore cst id userID =
      GetConversationFromStore listCache convStore cst id userID := by
  unfold GetConversation
  rw [listCache_getConversation_eq, h]

theorem GetConversation_cacheHit {convStore : List Conversation}
    {cst : ConvCacheMap} {id userID : String} {c : Conversation}
    (h : cacheLookup cst id = some c) (hm : c.userID = userID) :
    GetConversation listCache convStore cst id userID = (Except.ok c, cst) := by
  unfold GetConversation
  rw [listCache_getConversation_eq, h]
  simp [hm]

theorem GetConversation_cacheMismatch {convStore : List Conversation}
    {cst : ConvCacheMap} {id userID : String} {c : Conversation}
    (h : cacheLookup cst id = some c) (hm : c.userID ≠ userID) :
    GetConversation listCache convStore cst id userID =
      GetConversationFromStore listCache convStore cst id userID := by
  unfold GetConversation
  rw [listCache_getConversation_eq, h]
  simp [hm]

/-- Any conversation a `GetConversation` call returns carries the
requesting user as its owner, for every cache behaviour. -/
theorem GetConversation_owner {σ : Type} {cache : CacheService σ}
    {convStore : List Conversation} {cst : σ} {id userID : String}
    {c : Conversation}
    (h : (GetConversation cache convStore cst id userID).1 = Except.ok c) :
    c.userID = userID := by
  have hstore : ∀ cst₀ : σ,
      (GetConversationFromStore cache convStore cst₀ id userID).1 =
        Except.ok c → c.userID = userID := by
    intro cst₀ hs
    unfold GetConversationFromStore at hs
    rcases hg : ConvRepo.getByID convStore id with e | conv
    · rw [hg] at hs
      simp at hs
    · rw [hg] at hs
      by_cases hm : conv.userID = userID
      · simp only [hm, bne_self_eq_false, Bool.false_eq_true, if_false] at hs
        have : conv = c := by
          simpa using hs
        exact this ▸ hm
      · simp [hm] at hs
  unfold GetConversation at h
  rcases hc : cache.getConversation cst id with e | cached
  · rw [hc] at h
    exact hstore cst h
  · rw [hc] at h
    by_cases hm : cached.userID = userID
    · simp only [hm, beq_self_eq_true, if_true] at h
      have : cached = c := by
        simpa using h
      exact this ▸ hm
    · have hb : (cached.userID == userID) = false := by
        simp [hm]
      simp only [hb, Bool.false_eq_true, if_false] at h
      exact hstore cst h

/-! ## Claims -/

/-- C1: the claim that the error returned by `GetConversation` when the
conversation is absent equals the error returned when it exists with a
different owner is false: the absent case wraps the repository error as
`"failed to get conversation: conversation not found"`, the wrong-owner
case returns `"conversation not found or access denied"`, and these are
distinct values a caller can distinguish. -/
theorem C1_counterexample :
    (GetConversation listCache
        [⟨"c1", "u1", "web", "active", 0, 0⟩] [] "c2" "u1").1 =
      Except.error "failed to get conversation: conversation not found" ∧
    (GetConversation listCache
        [⟨"c1", "u1", "web", "active", 0, 0⟩] [] "c1" "u2").1 =
      Except.error "conversation not found or access denied" ∧
    (GetConversation listCache
        [⟨"c1", "u1", "web", "active", 0, 0⟩] [] "c2" "u1").1 ≠
      (GetConversation listCache
        [⟨"c1", "u1", "web", "active", 0, 0⟩] [] "c1" "u2").1 := by
  refine ⟨rfl, rfl, ?_⟩
  intro hco
  have h1 : (GetConversation listCache
      [⟨"c1", "u1", "web", "active", 0, 0⟩] [] "c2" "u1").1 =
      Except.error "failed to get conversation: conversation not found" := rfl
  have h2 : (GetConversation listCache
      [⟨"c1", "u1", "web", "active", 0, 0⟩] [] "c1" "u2").1 =
      Except.error "conversation not found or access denied" := rfl
  rw [h1, h2] at hco
  exact absurd (Except.error.inj hco) (by decide)

/-- C1 (amended): for every conversation id and requesting user,
`GetConversation` fails both when no conversation with that id exists and
when it exists with a different owner, but the two service-level errors are
distinct strings; indistinguishability holds one layer up, where the HTTP
handler maps every `GetConversation` failure to the identical
404 `NOT_FOUND` / `"Conversation not found"` response. -/
theorem C1_amended (convStore : List Conversation) (id userID : String)
    (hid : id ≠ "") (huser : userID ≠ "")
    (h : ∀ c ∈ convStore, c.id = id → c.userID ≠ userID) :
    (∃ e, (GetConversation listCache convStore [] id userID).1 =
      Except.error e) ∧
    (handlerGetConversation listCache convStore [] (some userID) id).1 =
      ⟨404, "NOT_FOUND", "Conversation not found", none⟩ := by
  have hgc : GetConversation listCache convStore [] id userID =
      GetConversationFromStore listCache convStore [] id userID :=
    GetConversation_cacheNone userID rfl
  have hfs : ∃ e, GetConversationFromStore listCache convStore
      ([] : ConvCacheMap) id userID =
      (Except.error e, ([] : ConvCacheMap)) := by
    rcases hf : convStore.find? (fun c => c.id == id) with _ | c
    · exact ⟨_, GetConversationFromStore_none listCache [] userID hf⟩
    · have hcmem := List.mem_of_find?_eq_some hf
      have hcb := List.find?_some hf
      have hcid : c.id = id := eq_of_beq hcb
      exact ⟨_, GetConversationFromStore_mismatch listCache [] hf
        (h c hcmem hcid)⟩
  obtain ⟨e, he⟩ := hfs
  constructor
  · exact ⟨e, by rw [hgc, he]⟩
  · have hu : (userID == "") = false := by simp [huser]
    have hi : (id == "") = false := by simp [hid]
    simp only [handlerGetConversation, resolvedUserID, hu, hi,
      Bool.false_eq_true, if_false]
    rw [hgc, he]

/-- Closed witness for `C1_amended`. -/
theorem C1_amended_witness :
    (∃ e, (GetConversation listCache
      [⟨"c1", "u1", "web", "active", 0, 0⟩] [] "c1" "u2").1 =
      Except.error e) ∧
    (handlerGetConversation listCache
      [⟨"c1", "u1", "web", "active", 0, 0⟩] [] (some "u2") "c1").1 =
      ⟨404, "NOT_FOUND", "Conversation not found", none⟩ :=
  C1_amended [⟨"c1", "u1", "web", "active", 0, 0⟩] "c1" "u2"
    (by decide) (by decide) (by decide)

/-- C2: `GetConversation` succeeds exactly when a record with the requested
id owned by the requester is in the cache or the store; every returned
record is owned by the requester; a cached record with a different owner is
bypassed in favour of the authoritative store path; and the cache state is
either untouched or written with exactly the record read from the store
whose owner matched. -/
theorem C2_get_conversation_read_path
    (convStore : List Conversation) (cst : ConvCacheMap) (id userID : String) :
    ((∃ c, (GetConversation listCache convStore cst id userID).1 =
        Except.ok c) ↔
      ((∃ c, cacheLookup cst id = some c ∧ c.userID = userID) ∨
       (∃ c, convStore.find? (fun x => x.id == id) = some c ∧
         c.userID = userID))) ∧
    (∀ c, (GetConversation listCache convStore cst id userID).1 =
      Except.ok c → c.userID = userID) ∧
    (∀ c, cacheLookup cst id = some c → c.userID ≠ userID →
      GetConversation listCache convStore cst id userID =
        GetConversationFromStore listCache convStore cst id userID) ∧
    ((GetConversation listCache convStore cst id userID).2 = cst ∨
      ∃ c, convStore.find? (fun x => x.id == id) = some c ∧
        c.userID = userID ∧
        (GetConversation listCache convStore cst id userID).2 =
          (c.id, c) :: cst.filter (fun p => p.1 != c.id)) := by
  refine ⟨?_, fun c h => GetConversation_owner h,
    fun c hl hm => GetConversation_cacheMismatch hl hm, ?_⟩
  · rcases hl : cacheLookup cst id with _ | c0
    · have hgc := @GetConversation_cacheNone convStore cst id userID hl
      rcases hf : convStore.find? (fun x => x.id == id) with _ | c1
      · rw [hgc, GetConversationFromStore_none listCache cst userID hf]
        constructor
        · rintro ⟨c, hc⟩
          simp at hc
        · rintro (⟨c, hc, hcu⟩ | ⟨c, hc, hcu⟩)
          · simp at hc
          · rw [hf] at hc
            simp at hc
      · by_cases hm1 : c1.userID = userID
        · rw [hgc, GetConversationFromStore_owned listCache cst hf hm1]
          exact ⟨fun _ => Or.inr ⟨c1, hf, hm1⟩, fun _ => ⟨c1, rfl⟩⟩
        · rw [hgc, GetConversationFromStore_mismatch listCache cst hf hm1]
          constructor
          · rintro ⟨c, hc⟩
            simp at hc
          · rintro (⟨c, hc, hcu⟩ | ⟨c, hc, hcu⟩)
            · simp at hc
            · rw [hf] at hc
              injection hc with hc
              subst hc
              exact absurd hcu hm1
    · by_cases hm0 : c0.userID = userID
      · rw [GetConversation_cacheHit hl hm0]
        exact ⟨fun _ => Or.inl ⟨c0, rfl, hm0⟩, fun _ => ⟨c0, rfl⟩⟩
      · have hgc := @GetConversation_cacheMismatch convStore cst id userID c0 hl hm0
        rcases hf : convStore.find? (fun x => x.id == id) with _ | c1
        · rw [hgc, GetConversationFromStore_none listCache cst userID hf]
          constructor
          · rintro ⟨c, hc⟩
            simp at hc
          · rintro (⟨c, hc, hcu⟩ | ⟨c, hc, hcu⟩)
            · injection hc with hc
              subst hc
              exact absurd hcu hm0
            · rw [hf] at hc
              simp at hc
        · by_cases hm1 : c1.userID = userID
          · rw [hgc, GetConversationFromStore_owned listCache cst hf hm1]
            exact ⟨fun _ => Or.inr ⟨c1, hf, hm1⟩, fun _ => ⟨c1, rfl⟩⟩
          · rw [hgc, GetConversationFromStore_mismatch listCache cst hf hm1]
            constructor
            · rintro ⟨c, hc⟩
              simp at hc
            · rintro (⟨c, hc, hcu⟩ | ⟨c, hc, hcu⟩)
              · injection hc with hc
                subst hc
                exact absurd hcu hm0
              · rw [hf] at hc
                injection hc with hc
                subst hc
                exact absurd hcu hm1
  · rcases hl : cacheLookup cst id with _ | c0
    · have hgc := @GetConversation_cacheNone convStore cst id userID hl
      rcases hf : convStore.find? (fun x => x.id == id) with _ | c1
      · left
        rw [hgc, GetConversationFromStore_none listCache cst userID hf]
      · by_cases hm1 : c1.userID = userID
        · right
          refine ⟨c1, hf, hm1, ?_⟩
          rw [hgc, GetConversationFromStore_owned listCache cst hf hm1]
          rfl
        · left
          rw [hgc, GetConversationFromStore_mismatch listCache cst hf hm1]
    · by_cases hm0 : c0.userID = userID
      · left
        rw [GetConversation_cacheHit hl hm0]
      · have hgc := @GetConversation_cacheMismatch convStore cst id userID c0 hl hm0
        rcases hf : convStore.find? (fun x => x.id == id) with _ | c1
        · left
          rw [hgc, GetConversationFromStore_none listCache cst userID hf]
        · by_cases hm1 : c1.userID = userID
          · right
            refine ⟨c1, hf, hm1, ?_⟩
            rw [hgc, GetConversationFromStore_owned listCache cst hf hm1]
            rfl
          · left
            rw [hgc, GetConversationFromStore_mismatch listCache cst hf hm1]

/-- C3: a `SendMessage` whose sender owns neither a cached nor a stored copy
of the target conversation (including the case where it does not exist)
fails with the not-found-or-denied outcome, writes nothing to the message
store, and hands no event to the publisher — for every create / publish
behaviour. -/
theorem C3_send_denied_no_write_no_event
    (convStore : List Conversation) (msgStore : List Message)
    (cst : ConvCacheMap) (req : SendMessageRequest) (newID : String)
    (now : Nat) (createErr : Option String)
    (pubErr : MessageEvent → Option String)
    (hcache : ∀ c, cacheLookup cst req.conversationID = some c →
      c.userID ≠ req.senderID)
    (hstore : ∀ c ∈ convStore, c.id = req.conversationID →
      c.userID ≠ req.senderID) :
    ((SendMessage listCache convStore msgStore cst req newID now createErr
        pubErr).result =
        Except.error "conversation not found or access denied" ∨
     (SendMessage listCache convStore msgStore cst req newID now createErr
        pubErr).result =
        Except.error "failed to get conversation: conversation not found") ∧
    (SendMessage listCache convStore msgStore cst req newID now createErr
      pubErr).msgStore = msgStore ∧
    (SendMessage listCache convStore msgStore cst req newID now createErr
      pubErr).published = [] := by
  have hgc : GetConversation listCache convStore cst req.conversationID
      req.senderID = GetConversationFromStore listCache convStore cst
      req.conversationID req.senderID := by
    rcases hl : cacheLookup cst req.conversationID with _ | c0
    · exact GetConversation_cacheNone req.senderID hl
    · exact GetConversation_cacheMismatch hl (hcache c0 hl)
  have hget : GetConversation listCache convStore cst req.conversationID
        req.senderID =
        (Except.error "conversation not found or access denied", cst) ∨
      GetConversation listCache convStore cst req.conversationID
        req.senderID =
        (Except.error "failed to get conversation: conversation not found",
          cst) := by
    rcases hf : convStore.find? (fun x => x.id == req.conversationID)
        with _ | c1
    · right
      rw [hgc]
      exact GetConversationFromStore_none listCache cst req.senderID hf
    · left
      rw [hgc]
      have hmem := List.mem_of_find?_eq_some hf
      have hb := List.find?_some hf
      exact GetConversationFromStore_mismatch listCache cst hf
        (hstore c1 hmem (eq_of_beq hb))
  rcases hget with h | h
  · unfold SendMessage
    rw [h]
    exact ⟨Or.inl rfl, rfl, rfl⟩
  · unfold SendMessage
    rw [h]
    exact ⟨Or.inr rfl, rfl, rfl⟩

/-- Closed witness for `C3_send_denied_no_write_no_event`. -/
theorem C3_witness :
    ((SendMessage listCache [⟨"c1", "u1", "web", "active", 0, 0⟩] [] []
        ⟨"c1", "user", "u2", "hi", "text", []⟩ "m1" 1 none
        (fun _ => none)).result =
        Except.error "conversation not found or access denied" ∨
     (SendMessage listCache [⟨"c1", "u1", "web", "active", 0, 0⟩] [] []
        ⟨"c1", "user", "u2", "hi", "text", []⟩ "m1" 1 none
        (fun _ => none)).result =
        Except.error "failed to get conversation: conversation not found") ∧
    (SendMessage listCache [⟨"c1", "u1", "web", "active", 0, 0⟩] [] []
      ⟨"c1", "user", "u2", "hi", "text", []⟩ "m1" 1 none
      (fun _ => none)).msgStore = [] ∧
    (SendMessage listCache [⟨"c1", "u1", "web", "active", 0, 0⟩] [] []
      ⟨"c1", "user", "u2", "hi", "text", []⟩ "m1" 1 none
      (fun _ => none)).published = [] :=
  C3_send_denied_no_write_no_event [⟨"c1", "u1", "web", "active", 0, 0⟩]
    [] [] ⟨"c1", "user", "u2", "hi", "text", []⟩ "m1" 1 none (fun _ => none)
    (by intro c hc; simp [cacheLookup] at hc) (by decide)

theorem GetConversationFromStore_id {σ : Type} {cache : CacheService σ}
    {convStore : List Conversation} {cst : σ} {id userID : String}
    {c : Conversation}
    (h : (GetConversationFromStore cache convStore cst id userID).1 =
      Except.ok c) : c.id = id := by
  unfold GetConversationFromStore ConvRepo.getByID at h
  rcases hf : convStore.find? (fun x => x.id == id) with _ | c1
  · rw [hf] at h
    simp at h
  · rw [hf] at h
    have hb := List.find?_some hf
    by_cases hm : c1.userID = userID
    · simp only [hm, bne_self_eq_false, Bool.false_eq_true, if_false] at h
      have hc : c1 = c := by
        simpa using h
      exact hc ▸ eq_of_beq hb
    · simp [hm] at h

/-- With a well-formed cache state (each entry stored under its record's own
id, as `SetConversation` always does), any conversation `GetConversation`
returns carries the requested id. -/
theorem GetConversation_id {convStore : List Conversation}
    {cst : ConvCacheMap} {id userID : String} {c : Conversation}
    (hwf : ∀ p ∈ cst, (p.2).id = p.1)
    (h : (GetConversation listCache convStore cst id userID).1 =
      Except.ok c) : c.id = id := by
  rcases hl : cacheLookup cst id with _ | c0
  · rw [@GetConversation_cacheNone convStore cst id userID hl] at h
    exact GetConversationFromStore_id h
  · by_cases hm : c0.userID = userID
    · rw [GetConversation_cacheHit hl hm] at h
      have hc : c0 = c := by
        simpa using h
      obtain ⟨p, hp, hp1, hp2⟩ := cacheLookup_eq_some hl
      rw [← hc, ← hp2, hwf p hp, hp1]
    · rw [@GetConversation_cacheMismatch convStore cst id userID c0 hl hm] at h
      exact GetConversationFromStore_id h

theorem cacheLookup_filter (s : ConvCacheMap) (id : String) :
    cacheLookup (s.filter (fun p => p.1 != id)) id = none := by
  unfold cacheLookup
  have hnone : (s.filter (fun p => p.1 != id)).find?
      (fun p => p.1 == id) = none := by
    rw [List.find?_eq_none]
    intro p hp
    have h2 := (List.mem_filter.mp hp).2
    simp only [bne_iff_ne, ne_eq] at h2
    simp [h2]
  rw [hnone]
  rfl

/-- The repository row-update places the updated record at every row whose
id matches, so a subsequent lookup by that id finds it. -/
theorem find?_update (l : List Conversation) (u : Conversation) (id : String)
    (huid : u.id = id) (h : l.any (fun r => r.id == u.id) = true) :
    (l.map (fun r => if r.id == u.id then u else r)).find?
      (fun c => c.id == id) = some u := by
  induction l with
  | nil => simp at h
  | cons a t ih =>
    simp only [List.map_cons]
    by_cases ha : (a.id == u.id) = true
    · rw [if_pos ha]
      apply List.find?_cons_of_pos
      simp [huid]
    · rw [if_neg ha, List.find?_cons_of_neg]
      · apply ih
        simp only [List.any_cons, ha, Bool.false_or] at h
        exact h
      · rw [← huid]
        exact ha

theorem UpdateConversationStatus_ok_eq {σ : Type} (cache : CacheService σ)
    (convStore : List Conversation) (cst : σ) (id status userID : String)
    (now : Nat) (g : Conversation) (cst₁ : σ)
    (hg : GetConversation cache convStore cst id userID =
      (Except.ok g, cst₁)) :
    UpdateConversationStatus cache convStore cst id status userID now =
      match ConvRepo.update convStore { g with status := status, updatedAt := now } with
      | Except.error e =>
        ⟨Except.error ("failed to update conversation: " ++ e), convStore, cst₁⟩
      | Except.ok convStore₁ =>
        ⟨Except.ok (), convStore₁, (cache.deleteConversation cst₁ id).1⟩ := by
  unfold UpdateConversationStatus
  rw [hg]

theorem UpdateConversationStatus_err_eq {σ : Type} (cache : CacheService σ)
    (convStore : List Conversation) (cst : σ) (id status userID : String)
    (now : Nat) (e : String) (cst₁ : σ)
    (hg : GetConversation cache convStore cst id userID =
      (Except.error e, cst₁)) :
    UpdateConversationStatus cache convStore cst id status userID now =
      ⟨Except.error e, convStore, cst₁⟩ := by
  unfold UpdateConversationStatus
  rw [hg]

/-- C4: a successful `UpdateConversationStatus` by the owner leaves every
store row with the requested id holding the new status and the fresh
(advanced) updated-timestamp, leaves the cache with no entry for that id,
and a subsequent `GetConversation` by the owner — run against the updated
store and the invalidated cache — returns the new status, even though the
cache may have held a stale copy before the update. -/
theorem C4_update_status_store_cache_get
    (convStore : List Conversation) (cst : ConvCacheMap)
    (id status userID : String) (now : Nat)
    (hwf : ∀ p ∈ cst, (p.2).id = p.1)
    (hnow : ∀ c ∈ convStore, c.id = id → c.updatedAt < now)
    (hok : (UpdateConversationStatus listCache convStore cst id status
      userID now).result = Except.ok ()) :
    (∀ c ∈ (UpdateConversationStatus listCache convStore cst id status
        userID now).convStore, c.id = id →
      c.status = status ∧ c.updatedAt = now ∧
        ∀ c₀ ∈ convStore, c₀.id = id → c₀.updatedAt < c.updatedAt) ∧
    cacheLookup ((UpdateConversationStatus listCache convStore cst id status
      userID now).cacheState) id = none ∧
    (∃ c, (GetConversation listCache
        ((UpdateConversationStatus listCache convStore cst id status userID
          now).convStore)
        ((UpdateConversationStatus listCache convStore cst id status userID
          now).cacheState) id userID).1 = Except.ok c ∧
      c.status = status) := by
  obtain ⟨r, cst₁, hg⟩ : ∃ r cst₁, GetConversation listCache convStore cst
      id userID = (r, cst₁) := ⟨_, _, rfl⟩
  rcases r with e | g
  · exfalso
    rw [UpdateConversationStatus_err_eq listCache convStore cst id status
      userID now e cst₁ hg] at hok
    simp at hok
  · have hstep := UpdateConversationStatus_ok_eq listCache convStore cst id
      status userID now g cst₁ hg
    have hgo : (GetConversation listCache convStore cst id userID).1 =
        Except.ok g := by
      rw [hg]
    have hgid : g.id = id := GetConversation_id hwf hgo
    have hgu : g.userID = userID := GetConversation_owner hgo
    obtain ⟨u, hu⟩ : ∃ u, ConvRepo.update convStore { g with status := status, updatedAt := now } = u :=
      ⟨_, rfl⟩
    rcases u with e | convStore₁
    · exfalso
      rw [hstep, hu] at hok
      simp at hok
    · have hany : convStore.any (fun r => r.id == ({ g with status := status, updatedAt := now } : Conversation).id) = true := by
        by_contra hn
        unfold ConvRepo.update at hu
        rw [if_neg hn] at hu
        simp at hu
      have hmap : convStore₁ = convStore.map (fun r => if r.id == ({ g with status := status, updatedAt := now } : Conversation).id then { g with status := status, updatedAt := now } else r) := by
        unfold ConvRepo.update at hu
        rw [if_pos hany] at hu
        exact (Except.ok.inj hu).symm
      have houtcome : UpdateConversationStatus listCache convStore cst id
          status userID now = ⟨Except.ok (), convStore₁,
            (listCache.deleteConversation cst₁ id).1⟩ := by
        rw [hstep, hu]
      have h1 : (UpdateConversationStatus listCache convStore cst id status
          userID now).convStore = convStore₁ := by
        rw [houtcome]
      have h2 : (UpdateConversationStatus listCache convStore cst id status
          userID now).cacheState = cst₁.filter (fun p => p.1 != id) := by
        rw [houtcome]
        rfl
      refine ⟨?_, ?_, ?_⟩
      · intro c hc hcid
        rw [h1, hmap] at hc
        obtain ⟨r, hr, hfr⟩ := List.mem_map.mp hc
        by_cases hri : (r.id == ({ g with status := status, updatedAt := now } : Conversation).id) = true
        · rw [if_pos hri] at hfr
          refine ⟨?_, ?_, ?_⟩
          · rw [← hfr]
          · rw [← hfr]
          · intro c₀ hc₀ hc₀id
            have hlt := hnow c₀ hc₀ hc₀id
            rw [← hfr]
            exact hlt
        · rw [if_neg hri] at hfr
          exfalso
          apply hri
          rw [hfr]
          show (c.id == g.id) = true
          rw [hcid, hgid]
          exact beq_self_eq_true id
      · rw [h2]
        exact cacheLookup_filter cst₁ id
      · refine ⟨{ g with status := status, updatedAt := now }, ?_, rfl⟩
        have hclean : cacheLookup ((UpdateConversationStatus listCache
            convStore cst id status userID now).cacheState) id = none := by
          rw [h2]
          exact cacheLookup_filter cst₁ id
        rw [GetConversation_cacheNone userID hclean, h1, hmap]
        have hfind := find?_update convStore
          { g with status := status, updatedAt := now } id hgid hany
        rw [GetConversationFromStore_owned listCache _ hfind hgu]

/-- Closed witness for `C4_update_status_store_cache_get`, with a stale
cached copy present before the update. -/
theorem C4_witness :
    (∀ c ∈ (UpdateConversationStatus listCache
        [⟨"c1", "u1", "web", "active", 0, 0⟩]
        [("c1", ⟨"c1", "u1", "web", "active", 0, 0⟩)] "c1" "closed" "u1"
        5).convStore, c.id = "c1" →
      c.status = "closed" ∧ c.updatedAt = 5 ∧
        ∀ c₀ ∈ [(⟨"c1", "u1", "web", "active", 0, 0⟩ : Conversation)],
          c₀.id = "c1" → c₀.updatedAt < c.updatedAt) ∧
    cacheLookup ((UpdateConversationStatus listCache
      [⟨"c1", "u1", "web", "active", 0, 0⟩]
      [("c1", ⟨"c1", "u1", "web", "active", 0, 0⟩)] "c1" "closed" "u1"
      5).cacheState) "c1" = none ∧
    (∃ c, (GetConversation listCache
        ((UpdateConversationStatus listCache
          [⟨"c1", "u1", "web", "active", 0, 0⟩]
          [("c1", ⟨"c1", "u1", "web", "active", 0, 0⟩)] "c1" "closed" "u1"
          5).convStore)
        ((UpdateConversationStatus listCache
          [⟨"c1", "u1", "web", "active", 0, 0⟩]
          [("c1", ⟨"c1", "u1", "web", "active", 0, 0⟩)] "c1" "closed" "u1"
          5).cacheState) "c1" "u1").1 = Except.ok c ∧
      c.status = "closed") :=
  C4_update_status_store_cache_get
    [⟨"c1", "u1", "web", "active", 0, 0⟩]
    [("c1", ⟨"c1", "u1", "web", "active", 0, 0⟩)] "c1" "closed" "u1" 5
    (by decide) (by decide) rfl

/-- C5: whenever the ownership check succeeds and the message-store write
succeeds, `SendMessage` hands the publisher exactly one
`"message.received"` event carrying the full created message and its
conversation id, and returns the created message — for every publisher
behaviour `pubErr`, including any that returns an error; the publisher's
result never affects the outcome. -/
theorem C5_send_publishes_and_ignores_publisher_errors
    {σ : Type} (cache : CacheService σ) (convStore : List Conversation)
    (msgStore : List Message) (cst : σ) (req : SendMessageRequest)
    (newID : String) (now : Nat) (pubErr : MessageEvent → Option String)
    (g : Conversation) (cst₁ : σ)
    (hget : GetConversation cache convStore cst req.conversationID
      req.senderID = (Except.ok g, cst₁)) :
    (SendMessage cache convStore msgStore cst req newID now none
        pubErr).result =
      Except.ok ⟨newID, req.conversationID, req.senderType, req.senderID,
        req.content, req.contentType, req.metadata, now, []⟩ ∧
    (SendMessage cache convStore msgStore cst req newID now none
        pubErr).msgStore =
      msgStore ++ [⟨newID, req.conversationID, req.senderType, req.senderID,
        req.content, req.contentType, req.metadata, now, []⟩] ∧
    (SendMessage cache convStore msgStore cst req newID now none
        pubErr).published =
      [⟨"message.received", req.conversationID,
        ⟨newID, req.conversationID, req.senderType, req.senderID,
          req.content, req.contentType, req.metadata, now, []⟩, now⟩] := by
  unfold SendMessage
  rw [hget]
  exact ⟨rfl, rfl, rfl⟩

/-- Closed witness for `C5_send_publishes_and_ignores_publisher_errors`,
instantiated with an always-failing publisher. -/
theorem C5_witness :
    (SendMessage listCache [⟨"c1", "u1", "web", "active", 0, 0⟩] [] []
        ⟨"c1", "user", "u1", "hi", "text", []⟩ "m1" 7 none
        (fun _ => some "publish failed")).result =
      Except.ok ⟨"m1", "c1", "user", "u1", "hi", "text", [], 7, []⟩ ∧
    (SendMessage listCache [⟨"c1", "u1", "web", "active", 0, 0⟩] [] []
        ⟨"c1", "user", "u1", "hi", "text", []⟩ "m1" 7 none
        (fun _ => some "publish failed")).msgStore =
      [] ++ [⟨"m1", "c1", "user", "u1", "hi", "text", [], 7, []⟩] ∧
    (SendMessage listCache [⟨"c1", "u1", "web", "active", 0, 0⟩] [] []
        ⟨"c1", "user", "u1", "hi", "text", []⟩ "m1" 7 none
        (fun _ => some "publish failed")).published =
      [⟨"message.received", "c1",
        ⟨"m1", "c1", "user", "u1", "hi", "text", [], 7, []⟩, 7⟩] :=
  C5_send_publishes_and_ignores_publisher_errors listCache
    [⟨"c1", "u1", "web", "active", 0, 0⟩] [] []
    ⟨"c1", "user", "u1", "hi", "text", []⟩ "m1" 7
    (fun _ => some "publish failed")
    ⟨"c1", "u1", "web", "active", 0, 0⟩
    [("c1", ⟨"c1", "u1", "web", "active", 0, 0⟩)] rfl

/-- C6: for every cache behaviour and state whose conversation-get returns
an error on the requested id — set and delete behaviours unconstrained, so
in particular a cache whose get, set, and delete all fail — the
caller-visible outcome of `GetConversation` and of
`UpdateConversationStatus` (its result and the resulting store) is exactly
that of the no-op cache: the cache error degrades to a miss / no-op and
never surfaces. -/
theorem C6_cache_errors_degrade_to_noop
    {σ : Type} (cache : CacheService σ) (cst : σ)
    (convStore : List Conversation) (id status userID : String) (now : Nat)
    (hg : ∃ e, cache.getConversation cst id = Except.error e) :
    (GetConversation cache convStore cst id userID).1 =
      (GetConversation noOpCache convStore () id userID).1 ∧
    (UpdateConversationStatus cache convStore cst id status userID
        now).result =
      (UpdateConversationStatus noOpCache convStore () id status userID
        now).result ∧
    (UpdateConversationStatus cache convStore cst id status userID
        now).convStore =
      (UpdateConversationStatus noOpCache convStore () id status userID
        now).convStore := by
  obtain ⟨e, he⟩ := hg
  have hfs : ∀ (cst₀ : σ) (cst₂ : Unit),
      (GetConversationFromStore cache convStore cst₀ id userID).1 =
      (GetConversationFromStore noOpCache convStore cst₂ id userID).1 := by
    intro cst₀ cst₂
    unfold GetConversationFromStore
    obtain ⟨r, hr⟩ : ∃ r, ConvRepo.getByID convStore id = r := ⟨_, rfl⟩
    rcases r with er | conv
    · rw [hr]
    · rw [hr]
      by_cases hm : conv.userID = userID
      · simp [hm]
      · simp [hm]
  have h1 : (GetConversation cache convStore cst id userID).1 =
      (GetConversation noOpCache convStore () id userID).1 := by
    unfold GetConversation
    rw [he]
    exact hfs cst ()
  refine ⟨h1, ?_, ?_⟩ <;>
  · obtain ⟨rA, cA, hA⟩ : ∃ rA cA, GetConversation cache convStore cst id
        userID = (rA, cA) := ⟨_, _, rfl⟩
    obtain ⟨rB, cB, hB⟩ : ∃ rB cB, GetConversation noOpCache convStore ()
        id userID = (rB, cB) := ⟨_, _, rfl⟩
    have hr : rA = rB := by
      have h2 := h1
      rw [hA, hB] at h2
      exact h2
    subst hr
    rcases rA with er | g
    · rw [UpdateConversationStatus_err_eq cache convStore cst id status
        userID now er cA hA,
        UpdateConversationStatus_err_eq noOpCache convStore () id status
        userID now er cB hB]
    · rw [UpdateConversationStatus_ok_eq cache convStore cst id status
        userID now g cA hA,
        UpdateConversationStatus_ok_eq noOpCache convStore () id status
        userID now g cB hB]
      obtain ⟨u, hu⟩ : ∃ u, ConvRepo.update convStore { g with status := status, updatedAt := now } = u :=
        ⟨_, rfl⟩
      rcases u with e2 | cs₁
      · rw [hu]
      · rw [hu]

/-- Closed witness for `C6_cache_errors_degrade_to_noop`, instantiated with
a cache whose get, set, and delete all return errors. -/
theorem C6_witness :
    (GetConversation
        ⟨fun _ _ => Except.error "cache down",
         fun s _ => (s, some "cache down"),
         fun s _ => (s, some "cache down"),
         fun _ _ => Except.error "cache down",
         fun s _ _ => (s, some "cache down"),
         fun s _ => (s, some "cache down")⟩
        [⟨"c1", "u1", "web", "active", 0, 0⟩] () "c1" "u1").1 =
      (GetConversation noOpCache
        [⟨"c1", "u1", "web", "active", 0, 0⟩] () "c1" "u1").1 ∧
    (UpdateConversationStatus
        ⟨fun _ _ => Except.error "cache down",
         fun s _ => (s, some "cache down"),
         fun s _ => (s, some "cache down"),
         fun _ _ => Except.error "cache down",
         fun s _ _ => (s, some "cache down"),
         fun s _ => (s, some "cache down")⟩
        [⟨"c1", "u1", "web", "active", 0, 0⟩] () "c1" "closed" "u1"
        3).result =
      (UpdateConversationStatus noOpCache
        [⟨"c1", "u1", "web", "active", 0, 0⟩] () "c1" "closed" "u1"
        3).result ∧
    (UpdateConversationStatus
        ⟨fun _ _ => Except.error "cache down",
         fun s _ => (s, some "cache down"),
         fun s _ => (s, some "cache down"),
         fun _ _ => Except.error "cache down",
         fun s _ _ => (s, some "cache down"),
         fun s _ => (s, some "cache down")⟩
        [⟨"c1", "u1", "web", "active", 0, 0⟩] () "c1" "closed" "u1"
        3).convStore =
      (UpdateConversationStatus noOpCache
        [⟨"c1", "u1", "web", "active", 0, 0⟩] () "c1" "closed" "u1"
        3).convStore :=
  C6_cache_errors_degrade_to_noop
    ⟨fun _ _ => Except.error "cache down",
     fun s _ => (s, some "cache down"),
     fun s _ => (s, some "cache down"),
     fun _ _ => Except.error "cache down",
     fun s _ _ => (s, some "cache down"),
     fun s _ => (s, some "cache down")⟩
    () [⟨"c1", "u1", "web", "active", 0, 0⟩] "c1" "closed" "u1" 3
    ⟨"cache down", rfl⟩

/-- C7: `GetMessages` propagates the ownership check's failure untouched
(no message fetch can contribute to the outcome), and on an owned
conversation with a successful page read it returns the whole page: a
message whose attachment load fails is returned unchanged (hence, as
loaded from the database, with an empty attachment list) while each message
whose load succeeds carries its loaded attachments. -/
theorem C7_get_messages_partial_attachment_failures
    {σ : Type} (cache : CacheService σ) (convStore : List Conversation)
    (pageOf : String → PaginationParams → Except String (List Message))
    (attOf : String → Except String (List Attachment)) (cst : σ)
    (conversationID userID : String) (pagination : PaginationParams) :
    (∀ e cst₁, GetConversation cache convStore cst conversationID userID =
        (Except.error e, cst₁) →
      (GetMessages cache convStore pageOf attOf cst conversationID userID
        pagination).1 = Except.error e) ∧
    (∀ g cst₁ msgs,
      GetConversation cache convStore cst conversationID userID =
        (Except.ok g, cst₁) →
      pageOf conversationID pagination = Except.ok msgs →
      (GetMessages cache convStore pageOf attOf cst conversationID userID
          pagination).1 = Except.ok (loadAttachments attOf msgs) ∧
      (loadAttachments attOf msgs).length = msgs.length ∧
      (∀ (i : Nat) (m : Message), msgs[i]? = some m → m.attachments = [] →
        ∀ e, attOf m.id = Except.error e →
          (loadAttachments attOf msgs)[i]? = some m ∧
          ((loadAttachments attOf msgs)[i]?).map Message.attachments =
            some []) ∧
      (∀ (i : Nat) (m : Message) (atts : List Attachment),
        msgs[i]? = some m → attOf m.id = Except.ok atts →
        (loadAttachments attOf msgs)[i]? =
          some { m with attachments := atts })) := by
  constructor
  · intro e cst₁ h
    unfold GetMessages
    rw [h]
  · intro g cst₁ msgs hg hp
    have hmain : (GetMessages cache convStore pageOf attOf cst
        conversationID userID pagination).1 =
        Except.ok (loadAttachments attOf msgs) := by
      unfold GetMessages
      rw [hg, hp]
    refine ⟨hmain, ?_, ?_, ?_⟩
    · unfold loadAttachments
      exact List.length_map _ _
    · intro i m hm hempty e he
      have hpt : (loadAttachments attOf msgs)[i]? =
          some (match attOf m.id with
            | Except.error _ => m
            | Except.ok atts => { m with attachments := atts }) := by
        unfold loadAttachments
        rw [List.getElem?_map, hm]
        rfl
      rw [he] at hpt
      refine ⟨hpt, ?_⟩
      rw [hpt]
      simp [hempty]
    · intro i m atts hm hatt
      unfold loadAttachments
      rw [List.getElem?_map, hm]
      simp [hatt]

/-- Closed witness for `C7_get_messages_partial_attachment_failures`: a
two-message page where the first message's attachment load fails and the
second's succeeds. -/
theorem C7_witness :
    (GetMessages listCache [⟨"c1", "u1", "web", "active", 0, 0⟩]
        (fun _ _ => Except.ok
          [⟨"m1", "c1", "user", "u1", "a", "text", [], 1, []⟩,
           ⟨"m2", "c1", "user", "u1", "b", "text", [], 2, []⟩])
        (fun i => if i == "m1" then Except.error "db down"
          else Except.ok [⟨"a1", "m2", "/u", "file", 1, "f", 0⟩]) []
        "c1" "u1" ⟨50, 0, "timestamp", "DESC"⟩).1 =
      Except.ok (loadAttachments
        (fun i => if i == "m1" then Except.error "db down"
          else Except.ok [⟨"a1", "m2", "/u", "file", 1, "f", 0⟩])
        [⟨"m1", "c1", "user", "u1", "a", "text", [], 1, []⟩,
         ⟨"m2", "c1", "user", "u1", "b", "text", [], 2, []⟩]) ∧
    (loadAttachments
        (fun i => if i == "m1" then Except.error "db down"
          else Except.ok [⟨"a1", "m2", "/u", "file", 1, "f", 0⟩])
        [⟨"m1", "c1", "user", "u1", "a", "text", [], 1, []⟩,
         ⟨"m2", "c1", "user", "u1", "b", "text", [], 2, []⟩])[0]? =
      some ⟨"m1", "c1", "user", "u1", "a", "text", [], 1, []⟩ ∧
    (loadAttachments
        (fun i => if i == "m1" then Except.error "db down"
          else Except.ok [⟨"a1", "m2", "/u", "file", 1, "f", 0⟩])
        [⟨"m1", "c1", "user", "u1", "a", "text", [], 1, []⟩,
         ⟨"m2", "c1", "user", "u1", "b", "text", [], 2, []⟩])[1]? =
      some ⟨"m2", "c1", "user", "u1", "b", "text", [], 2,
        [⟨"a1", "m2", "/u", "file", 1, "f", 0⟩]⟩ := by
  have h := (C7_get_messages_partial_attachment_failures listCache
    [⟨"c1", "u1", "web", "active", 0, 0⟩]
    (fun _ _ => Except.ok
      [⟨"m1", "c1", "user", "u1", "a", "text", [], 1, []⟩,
       ⟨"m2", "c1", "user", "u1", "b", "text", [], 2, []⟩])
    (fun i => if i == "m1" then Except.error "db down"
      else Except.ok [⟨"a1", "m2", "/u", "file", 1, "f", 0⟩]) []
    "c1" "u1" ⟨50, 0, "timestamp", "DESC"⟩).2
    ⟨"c1", "u1", "web", "active", 0, 0⟩
    [("c1", ⟨"c1", "u1", "web", "active", 0, 0⟩)]
    [⟨"m1", "c1", "user", "u1", "a", "text", [], 1, []⟩,
     ⟨"m2", "c1", "user", "u1", "b", "text", [], 2, []⟩] rfl rfl
  exact ⟨h.1,
    (h.2.2.1 0 ⟨"m1", "c1", "user", "u1", "a", "text", [], 1, []⟩ rfl rfl
      "db down" rfl).1,
    h.2.2.2 1 ⟨"m2", "c1", "user", "u1", "b", "text", [], 2, []⟩
      [⟨"a1", "m2", "/u", "file", 1, "f", 0⟩] rfl rfl⟩

theorem GetMessage_err_eq {σ : Type} (cache : CacheService σ)
    (convStore : List Conversation)
    (msgGetByID : String → Except String Message)
    (attOf : String → Except String (List Attachment)) (cst : σ)
    (messageID userID : String) (e : String)
    (hm : msgGetByID messageID = Except.error e) :
    GetMessage cache convStore msgGetByID attOf cst messageID userID =
      (Except.error ("failed to get message: " ++ e), cst) := by
  unfold GetMessage
  rw [hm]

theorem GetMessage_ok_eq {σ : Type} (cache : CacheService σ)
    (convStore : List Conversation)
    (msgGetByID : String → Except String Message)
    (attOf : String → Except String (List Attachment)) (cst : σ)
    (messageID userID : String) (msg : Message)
    (hm : msgGetByID messageID = Except.ok msg) :
    GetMessage cache convStore msgGetByID attOf cst messageID userID =
      match GetConversation cache convStore cst msg.conversationID userID with
      | (Except.error e, cst₁) => (Except.error e, cst₁)
      | (Except.ok _, cst₁) =>
        match attOf messageID with
        | Except.error _ => (Except.ok msg, cst₁)
        | Except.ok atts => (Except.ok { msg with attachments := atts }, cst₁) := by
  unfold GetMessage
  rw [hm]

theorem GetAttachment_ok_eq {σ : Type} (cache : CacheService σ)
    (convStore : List Conversation)
    (msgGetByID : String → Except String Message)
    (attGetByID : String → Except String Attachment)
    (attOf : String → Except String (List Attachment)) (cst : σ)
    (attachmentID userID : String) (a : Attachment)
    (ha : attGetByID attachmentID = Except.ok a) :
    GetAttachment cache convStore msgGetByID attGetByID attOf cst
        attachmentID userID =
      match GetMessage cache convStore msgGetByID attOf cst a.messageID
          userID with
      | (Except.error e, cst₁) => (Except.error e, cst₁)
      | (Except.ok _, cst₁) => (Except.ok a, cst₁) := by
  unfold GetAttachment
  rw [ha]

/-- C8: for an attachment present in the attachment store, `GetAttachment`
succeeds exactly when the requester owns the conversation of the
attachment's parent message — resolved transitively through the message
store and conversation store — and on success it returns exactly that
attachment; any non-owner (and any dangling parent reference) gets a
failure. -/
theorem C8_get_attachment_transitive_ownership
    (convStore : List Conversation) (msgStore : List Message)
    (attStore : List Attachment) (attachmentID userID : String)
    (a : Attachment)
    (ha : AttRepo.getByID attStore attachmentID = Except.ok a) :
    ((∃ r, (GetAttachment listCache convStore (MsgRepo.getByID msgStore)
        (AttRepo.getByID attStore) (AttRepo.getByMessageID attStore) []
        attachmentID userID).1 = Except.ok r) ↔
      (∃ m, msgStore.find? (fun x => x.id == a.messageID) = some m ∧
        ∃ c, convStore.find? (fun x => x.id == m.conversationID) = some c ∧
          c.userID = userID)) ∧
    (∀ r, (GetAttachment listCache convStore (MsgRepo.getByID msgStore)
        (AttRepo.getByID attStore) (AttRepo.getByMessageID attStore) []
        attachmentID userID).1 = Except.ok r → r = a) := by
  obtain ⟨rm, hm⟩ : ∃ rm, msgStore.find? (fun x => x.id == a.messageID) =
      rm := ⟨_, rfl⟩
  rcases rm with _ | m
  · have hmr : MsgRepo.getByID msgStore a.messageID =
        Except.error "message not found" := by
      unfold MsgRepo.getByID
      rw [hm]
    have key : GetAttachment listCache convStore (MsgRepo.getByID msgStore)
        (AttRepo.getByID attStore) (AttRepo.getByMessageID attStore)
        ([] : ConvCacheMap) attachmentID userID =
        (Except.error ("failed to get message: " ++ "message not found"),
          ([] : ConvCacheMap)) := by
      rw [GetAttachment_ok_eq listCache convStore (MsgRepo.getByID msgStore)
        (AttRepo.getByID attStore) (AttRepo.getByMessageID attStore) []
        attachmentID userID a ha,
        GetMessage_err_eq listCache convStore (MsgRepo.getByID msgStore)
        (AttRepo.getByMessageID attStore) [] a.messageID userID
        "message not found" hmr]
    rw [key]
    constructor
    · constructor
      · rintro ⟨r, hr⟩
        simp at hr
      · rintro ⟨m, hmm, -⟩
        rw [hm] at hmm
        simp at hmm
    · intro r hr
      simp at hr
  · have hmr : MsgRepo.getByID msgStore a.messageID = Except.ok m := by
      unfold MsgRepo.getByID
      rw [hm]
    obtain ⟨rc, hf⟩ : ∃ rc, convStore.find?
        (fun x => x.id == m.conversationID) = rc := ⟨_, rfl⟩
    rcases rc with _ | c
    · have hgc : GetConversation listCache convStore []
          m.conversationID userID =
          (Except.error "failed to get conversation: conversation not found",
            ([] : ConvCacheMap)) := by
        rw [GetConversation_cacheNone userID (by rfl)]
        exact GetConversationFromStore_none listCache [] userID hf
      have key : GetAttachment listCache convStore
          (MsgRepo.getByID msgStore) (AttRepo.getByID attStore)
          (AttRepo.getByMessageID attStore) ([] : ConvCacheMap)
          attachmentID userID =
          (Except.error "failed to get conversation: conversation not found",
            ([] : ConvCacheMap)) := by
        rw [GetAttachment_ok_eq listCache convStore
          (MsgRepo.getByID msgStore) (AttRepo.getByID attStore)
          (AttRepo.getByMessageID attStore) [] attachmentID userID a ha,
          GetMessage_ok_eq listCache convStore (MsgRepo.getByID msgStore)
          (AttRepo.getByMessageID attStore) [] a.messageID userID m hmr,
          hgc]
      rw [key]
      constructor
      · constructor
        · rintro ⟨r, hr⟩
          simp at hr
        · rintro ⟨m2, hm2, c2, hf2, -⟩
          rw [hm] at hm2
          injection hm2 with hm2
          subst hm2
          rw [hf] at hf2
          simp at hf2
      · intro r hr
        simp at hr
    · by_cases hcu : c.userID = userID
      · have hgc : GetConversation listCache convStore []
            m.conversationID userID =
            (Except.ok c, (listCache.setConversation [] c).1) := by
          rw [GetConversation_cacheNone userID (by rfl)]
          exact GetConversationFromStore_owned listCache [] hf hcu
        have key : GetAttachment listCache convStore
            (MsgRepo.getByID msgStore) (AttRepo.getByID attStore)
            (AttRepo.getByMessageID attStore) ([] : ConvCacheMap)
            attachmentID userID =
            (Except.ok a, (listCache.setConversation [] c).1) := by
          rw [GetAttachment_ok_eq listCache convStore
            (MsgRepo.getByID msgStore) (AttRepo.getByID attStore)
            (AttRepo.getByMessageID attStore) [] attachmentID userID a ha,
            GetMessage_ok_eq listCache convStore (MsgRepo.getByID msgStore)
            (AttRepo.getByMessageID attStore) [] a.messageID userID m hmr,
            hgc]
          rfl
        rw [key]
        constructor
        · constructor
          · intro _
            exact ⟨m, hm, c, hf, hcu⟩
          · intro _
            exact ⟨a, rfl⟩
        · intro r hr
          have : a = r := by
            simpa using hr
          exact this.symm
      · have hgc : GetConversation listCache convStore []
            m.conversationID userID =
            (Except.error "conversation not found or access denied",
              ([] : ConvCacheMap)) := by
          rw [GetConversation_cacheNone userID (by rfl)]
          exact GetConversationFromStore_mismatch listCache [] hf hcu
        have key : GetAttachment listCache convStore
            (MsgRepo.getByID msgStore) (AttRepo.getByID attStore)
            (AttRepo.getByMessageID attStore) ([] : ConvCacheMap)
            attachmentID userID =
            (Except.error "conversation not found or access denied",
              ([] : ConvCacheMap)) := by
          rw [GetAttachment_ok_eq listCache convStore
            (MsgRepo.getByID msgStore) (AttRepo.getByID attStore)
            (AttRepo.getByMessageID attStore) [] attachmentID userID a ha,
            GetMessage_ok_eq listCache convStore (MsgRepo.getByID msgStore)
            (AttRepo.getByMessageID attStore) [] a.messageID userID m hmr,
            hgc]
        rw [key]
        constructor
        · constructor
          · rintro ⟨r, hr⟩
            simp at hr
          · rintro ⟨m2, hm2, c2, hf2, hu2⟩
            rw [hm] at hm2
            injection hm2 with hm2
            subst hm2
            rw [hf] at hf2
            injection hf2 with hf2
            subst hf2
            exact absurd hu2 hcu
        · intro r hr
          simp at hr

/-- Closed witness for `C8_get_attachment_transitive_ownership`: the owner
fetches an existing attachment through the message / conversation chain. -/
theorem C8_witness :
    ((∃ r, (GetAttachment listCache [⟨"c1", "u1", "web", "active", 0, 0⟩]
        (MsgRepo.getByID [⟨"m1", "c1", "user", "u1", "a", "text", [], 1, []⟩])
        (AttRepo.getByID [⟨"a1", "m1", "/u", "file", 1, "f", 0⟩])
        (AttRepo.getByMessageID [⟨"a1", "m1", "/u", "file", 1, "f", 0⟩]) []
        "a1" "u1").1 = Except.ok r) ↔
      (∃ m, ([⟨"m1", "c1", "user", "u1", "a", "text", [], 1, []⟩] :
            List Message).find?
          (fun x => x.id ==
            (⟨"a1", "m1", "/u", "file", 1, "f", 0⟩ : Attachment).messageID) =
          some m ∧
        ∃ c, ([⟨"c1", "u1", "web", "active", 0, 0⟩] :
            List Conversation).find?
            (fun x => x.id == m.conversationID) = some c ∧
          c.userID = "u1")) ∧
    (∀ r, (GetAttachment listCache [⟨"c1", "u1", "web", "active", 0, 0⟩]
        (MsgRepo.getByID [⟨"m1", "c1", "user", "u1", "a", "text", [], 1, []⟩])
        (AttRepo.getByID [⟨"a1", "m1", "/u", "file", 1, "f", 0⟩])
        (AttRepo.getByMessageID [⟨"a1", "m1", "/u", "file", 1, "f", 0⟩]) []
        "a1" "u1").1 = Except.ok r →
      r = ⟨"a1", "m1", "/u", "file", 1, "f", 0⟩) :=
  C8_get_attachment_transitive_ownership
    [⟨"c1", "u1", "web", "active", 0, 0⟩]
    [⟨"m1", "c1", "user", "u1", "a", "text", [], 1, []⟩]
    [⟨"a1", "m1", "/u", "file", 1, "f", 0⟩] "a1" "u1"
    ⟨"a1", "m1", "/u", "file", 1, "f", 0⟩ rfl

/-- Every message the domain `SendMessage` leaves in the message store was
either already there or carries the request's sender id. -/
theorem SendMessage_senderID {σ : Type} (cache : CacheService σ)
    (convStore : List Conversation) (msgStore : List Message) (cst : σ)
    (req : SendMessageRequest) (newID : String) (now : Nat)
    (createErr : Option String) (pubErr : MessageEvent → Option String) :
    ∀ m ∈ (SendMessage cache convStore msgStore cst req newID now createErr
      pubErr).msgStore, m ∈ msgStore ∨ m.senderID = req.senderID := by
  obtain ⟨r, cst₁, hg⟩ : ∃ r cst₁, GetConversation cache convStore cst
      req.conversationID req.senderID = (r, cst₁) := ⟨_, _, rfl⟩
  rcases r with e | g
  · intro m hm
    unfold SendMessage at hm
    rw [hg] at hm
    exact Or.inl hm
  · rcases createErr with _ | e2
    · intro m hm
      unfold SendMessage at hm
      rw [hg] at hm
      have hm2 : m ∈ msgStore ++
          [({ id := newID, conversationID := req.conversationID,
              senderType := req.senderType, senderID := req.senderID,
              content := req.content, contentType := req.contentType,
              metadata := req.metadata, timestamp := now,
              attachments := [] } : Message)] := hm
      rcases List.mem_append.mp hm2 with h | h
      · exact Or.inl h
      · right
        have hm3 := List.eq_of_mem_singleton h
        rw [hm3]
    · intro m hm
      unfold SendMessage at hm
      rw [hg] at hm
      exact Or.inl hm

/-- C9: the claim that two authenticated SendMessage requests differing only
in the body-supplied `conversation_id` / `sender_id` always produce
identical outcomes is false: the gin `binding:"required"` validation runs
before the handler overwrites those fields, so a body whose `sender_id` is
empty is rejected with 400 while the same body with any non-empty
`sender_id` proceeds and succeeds with 201. -/
theorem C9_counterexample :
    (handlerSendMessage listCache [⟨"c1", "u1", "web", "active", 0, 0⟩] []
      [] (some "u1") "c1" ⟨"x", "user", "u9", "hi", "text", []⟩ "m1" 1 none
      (fun _ => none)).response.status = 201 ∧
    (handlerSendMessage listCache [⟨"c1", "u1", "web", "active", 0, 0⟩] []
      [] (some "u1") "c1" ⟨"x", "user", "", "hi", "text", []⟩ "m1" 1 none
      (fun _ => none)).response.status = 400 ∧
    (handlerSendMessage listCache [⟨"c1", "u1", "web", "active", 0, 0⟩] []
      [] (some "u1") "c1" ⟨"x", "user", "u9", "hi", "text", []⟩ "m1" 1 none
      (fun _ => none)).response ≠
    (handlerSendMessage listCache [⟨"c1", "u1", "web", "active", 0, 0⟩] []
      [] (some "u1") "c1" ⟨"x", "user", "", "hi", "text", []⟩ "m1" 1 none
      (fun _ => none)).response := by
  refine ⟨rfl, rfl, ?_⟩
  intro hco
  have h1 : (201 : Nat) = 400 := by
    have hs1 : (handlerSendMessage listCache
        [⟨"c1", "u1", "web", "active", 0, 0⟩] [] [] (some "u1") "c1"
        ⟨"x", "user", "u9", "hi", "text", []⟩ "m1" 1 none
        (fun _ => none)).response.status = 201 := rfl
    have hs2 : (handlerSendMessage listCache
        [⟨"c1", "u1", "web", "active", 0, 0⟩] [] [] (some "u1") "c1"
        ⟨"x", "user", "", "hi", "text", []⟩ "m1" 1 none
        (fun _ => none)).response.status = 400 := rfl
    rw [← hs1, ← hs2, hco]
  exact absurd h1 (by decide)

/-- C9 (amended): among bodies that pass the declared `binding:"required"`
validation, the handler's overwrite of `conversation_id` with the path
parameter and of `sender_id` with the authenticated user id makes the
outcome independent of the body-supplied values of those two fields, and in
every case any message the request leaves persisted carries the
authenticated user id as its sender. -/
theorem C9_amended {σ : Type} (cache : CacheService σ)
    (convStore : List Conversation) (msgStore : List Message) (cst : σ)
    (userID pathID : String) (b₁ b₂ : SendMessageRequest) (newID : String)
    (now : Nat) (createErr : Option String)
    (pubErr : MessageEvent → Option String)
    (hst : b₁.senderType = b₂.senderType) (hct : b₁.content = b₂.content)
    (hcty : b₁.contentType = b₂.contentType)
    (hmd : b₁.metadata = b₂.metadata)
    (hb₁ : bindingErrors b₁ = []) (hb₂ : bindingErrors b₂ = []) :
    handlerSendMessage cache convStore msgStore cst (some userID) pathID b₁
        newID now createErr pubErr =
      handlerSendMessage cache convStore msgStore cst (some userID) pathID
        b₂ newID now createErr pubErr ∧
    ∀ m ∈ (handlerSendMessage cache convStore msgStore cst (some userID)
        pathID b₁ newID now createErr pubErr).msgStore,
      m ∈ msgStore ∨ m.senderID = userID := by
  have hreq : ({ b₁ with conversationID := pathID, senderID := userID } :
      SendMessageRequest) =
      { b₂ with conversationID := pathID, senderID := userID } := by
    cases b₁
    cases b₂
    simp only [SendMessageRequest.mk.injEq]
    exact ⟨trivial, hst, trivial, hct, hcty, hmd⟩
  constructor
  · unfold handlerSendMessage
    simp only [resolvedUserID]
    by_cases hu : (userID == "") = true
    · rw [if_pos hu, if_pos hu]
    · rw [if_neg hu, if_neg hu]
      by_cases hp : (pathID == "") = true
      · rw [if_pos hp, if_pos hp]
      · rw [if_neg hp, if_neg hp]
        have hc₁ : ¬(bindingErrors b₁ ≠ []) := by simp [hb₁]
        have hc₂ : ¬(bindingErrors b₂ ≠ []) := by simp [hb₂]
        rw [if_neg hc₁, if_neg hc₂, hreq]
  · intro m hm
    unfold handlerSendMessage at hm
    simp only [resolvedUserID] at hm
    by_cases hu : (userID == "") = true
    · rw [if_pos hu] at hm
      exact Or.inl hm
    · rw [if_neg hu] at hm
      by_cases hp : (pathID == "") = true
      · rw [if_pos hp] at hm
        exact Or.inl hm
      · rw [if_neg hp] at hm
        have hc₁ : ¬(bindingErrors b₁ ≠ []) := by simp [hb₁]
        rw [if_neg hc₁] at hm
        have hsend := SendMessage_senderID cache convStore msgStore cst
          { b₁ with conversationID := pathID, senderID := userID } newID
          now createErr pubErr
        obtain ⟨so, hso⟩ : ∃ so, SendMessage cache convStore msgStore cst
            { b₁ with conversationID := pathID, senderID := userID } newID
            now createErr pubErr = so := ⟨_, rfl⟩
        rw [hso] at hm hsend
        rcases so with ⟨rs, ms, pub, cs⟩
        rcases rs with e | msg
        · exact hsend m hm
        · exact hsend m hm

/-- Closed witness for `C9_amended`: two binding-valid bodies differing in
both `conversation_id` and `sender_id` yield identical outcomes, and the
persisted message carries the authenticated sender. -/
theorem C9_amended_witness :
    (handlerSendMessage listCache [⟨"c1", "u1", "web", "active", 0, 0⟩] []
        [] (some "u1") "c1" ⟨"x", "user", "u9", "hi", "text", []⟩ "m1" 1
        none (fun _ => none) =
      handlerSendMessage listCache [⟨"c1", "u1", "web", "active", 0, 0⟩] []
        [] (some "u1") "c1" ⟨"y", "user", "u7", "hi", "text", []⟩ "m1" 1
        none (fun _ => none)) ∧
    ∀ m ∈ (handlerSendMessage listCache
        [⟨"c1", "u1", "web", "active", 0, 0⟩] [] [] (some "u1") "c1"
        ⟨"x", "user", "u9", "hi", "text", []⟩ "m1" 1 none
        (fun _ => none)).msgStore,
      m ∈ ([] : List Message) ∨ m.senderID = "u1" :=
  C9_amended listCache [⟨"c1", "u1", "web", "active", 0, 0⟩] [] [] "u1"
    "c1" ⟨"x", "user", "u9", "hi", "text", []⟩
    ⟨"y", "user", "u7", "hi", "text", []⟩ "m1" 1 none (fun _ => none)
    rfl rfl rfl rfl (by decide) (by decide)

/-- C10: the outcome of `SendMessage`, `GetMessages`, and `GetMessage` is
invariant under every change to the cache's message-page operations
(`GetMessages` / `SetMessages` / `DeleteMessages`, the `messages:%s` keys
with the 10-minute TTL): two caches agreeing on the conversation operations
alone give identical outcomes, so no domain operation ever consults the
message-page cache — message pages are always served from the store. -/
theorem C10_message_page_cache_never_consulted {σ : Type}
    (cacheA cacheB : CacheService σ)
    (hg : cacheA.getConversation = cacheB.getConversation)
    (hs : cacheA.setConversation = cacheB.setConversation)
    (hd : cacheA.deleteConversation = cacheB.deleteConversation) :
    (∀ (convStore : List Conversation) (msgStore : List Message) (cst : σ)
        (req : SendMessageRequest) (newID : String) (now : Nat)
        (createErr : Option String) (pubErr : MessageEvent → Option String),
      SendMessage cacheA convStore msgStore cst req newID now createErr
        pubErr =
      SendMessage cacheB convStore msgStore cst req newID now createErr
        pubErr) ∧
    (∀ (convStore : List Conversation)
        (pageOf : String → PaginationParams → Except String (List Message))
        (attOf : String → Except String (List Attachment)) (cst : σ)
        (conversationID userID : String) (pagination : PaginationParams),
      GetMessages cacheA convStore pageOf attOf cst conversationID userID
        pagination =
      GetMessages cacheB convStore pageOf attOf cst conversationID userID
        pagination) ∧
    (∀ (convStore : List Conversation)
        (msgGetByID : String → Except String Message)
        (attOf : String → Except String (List Attachment)) (cst : σ)
        (messageID userID : String),
      GetMessage cacheA convStore msgGetByID attOf cst messageID userID =
      GetMessage cacheB convStore msgGetByID attOf cst messageID userID) := by
  cases cacheA
  cases cacheB
  dsimp only at hg hs hd
  subst hg
  subst hs
  subst hd
  exact ⟨fun _ _ _ _ _ _ _ _ => rfl, fun _ _ _ _ _ _ _ => rfl,
    fun _ _ _ _ _ _ => rfl⟩

/-- A cache agreeing with `listCache` on the conversation operations but
with different message-page operations; used only to witness the
message-page frame property. -/
def listCacheAltMessages : CacheService ConvCacheMap :=
  { listCache with
    getMessages := fun _ _ => Except.ok []
    setMessages := fun s _ _ => (s, some "not stored")
    deleteMessages := fun s _ => (s, some "not deleted") }

/-- Closed witness for `C10_message_page_cache_never_consulted`. -/
theorem C10_witness :
    SendMessage listCache [⟨"c1", "u1", "web", "active", 0, 0⟩] [] []
        ⟨"c1", "user", "u1", "hi", "text", []⟩ "m1" 1 none (fun _ => none) =
      SendMessage listCacheAltMessages
        [⟨"c1", "u1", "web", "active", 0, 0⟩] [] []
        ⟨"c1", "user", "u1", "hi", "text", []⟩ "m1" 1 none (fun _ => none) ∧
    GetMessages listCache [⟨"c1", "u1", "web", "active", 0, 0⟩]
        (fun _ _ => Except.ok []) (fun _ => Except.ok []) [] "c1" "u1"
        ⟨50, 0, "timestamp", "DESC"⟩ =
      GetMessages listCacheAltMessages
        [⟨"c1", "u1", "web", "active", 0, 0⟩] (fun _ _ => Except.ok [])
        (fun _ => Except.ok []) [] "c1" "u1"
        ⟨50, 0, "timestamp", "DESC"⟩ ∧
    GetMessage listCache [⟨"c1", "u1", "web", "active", 0, 0⟩]
        (fun _ => Except.error "message not found")
        (fun _ => Except.ok []) [] "m1" "u1" =
      GetMessage listCacheAltMessages
        [⟨"c1", "u1", "web", "active", 0, 0⟩]
        (fun _ => Except.error "message not found")
        (fun _ => Except.ok []) [] "m1" "u1" :=
  ⟨(C10_message_page_cache_never_consulted listCache listCacheAltMessages
      rfl rfl rfl).1 [⟨"c1", "u1", "web", "active", 0, 0⟩] [] []
      ⟨"c1", "user", "u1", "hi", "text", []⟩ "m1" 1 none (fun _ => none),
   (C10_message_page_cache_never_consulted listCache listCacheAltMessages
      rfl rfl rfl).2.1 [⟨"c1", "u1", "web", "active", 0, 0⟩]
      (fun _ _ => Except.ok []) (fun _ => Except.ok []) [] "c1" "u1"
      ⟨50, 0, "timestamp", "DESC"⟩,
   (C10_message_page_cache_never_consulted listCache listCacheAltMessages
      rfl rfl rfl).2.2 [⟨"c1", "u1", "web", "active", 0, 0⟩]
      (fun _ => Except.error "message not found")
      (fun _ => Except.ok []) [] "m1" "u1"⟩
